import Mathlib

/-!
# oci-hosts-builder: hosts-file synchronizer and hierarchy walker

A shallow embedding of `main.go`.  Go strings are modelled as lists of
Unicode characters (`Str`); the program only concatenates them, searches them
for ASCII substrings and splits them at ASCII line feeds, and these operations
agree on a UTF-8 byte string and on its list of characters.  Where Go counts
bytes (the scanner's token limit) the model counts the UTF-8 size of each
character, and where Go counts runes (the width of a formatted operand) it
counts characters.
-/

namespace OciHosts

/-- Go `string`, as its list of characters. -/
abbrev Str := List Char

/-- Go `error` values are kept as their message. -/
abbrev GoError := String

deriving instance DecidableEq for Except

/-- Number of bytes of a string (Go `len`). -/
def utf8Len (s : Str) : Nat := (s.map (fun c => c.utf8Size)).sum

/-! ## Standard-library functions used by the program -/

/-- Go `strings.Contains(s, substr)`. -/
def contains : Str → Str → Bool
  | [], substr => substr.isEmpty
  | c :: s, substr => substr.isPrefixOf (c :: s) || contains s substr

/-- Go `bufio.dropCR`: drop one trailing carriage return. -/
def dropCR (data : Str) : Str :=
  if data.getLast? = some '\r' then data.dropLast else data

/-- The successive pieces that `bufio.ScanLines` cuts the input into, before
`dropCR` is applied: the text is cut at every line feed, and a final piece
without line feed is a line of its own when it is not empty. -/
def rawLines : Str → List Str
  | [] => []
  | c :: cs =>
    if c = '\n' then [] :: rawLines cs
    else
      match rawLines cs with
      | [] => [[c]]
      | l :: ls => (c :: l) :: ls

/-- Go `bufio.MaxScanTokenSize`: the scanner's buffer limit, in bytes.  A piece
of that many bytes or more (its line feed not counted) stops the scanner with
`bufio.ErrTooLong`. -/
def maxScanTokenSize : Nat := 64 * 1024

/-- Go `bufio.ErrTooLong`. -/
def errTooLong : GoError := "bufio.Scanner: token too long"

/-- Whether the character is an ASCII digit. -/
def isDigit (c : Char) : Bool := decide ('0' ≤ c) && decide (c ≤ '9')

/-- Value of an ASCII digit. -/
def digitVal (c : Char) : Nat := c.toNat - 48

/-- Go `fmt.tooLarge`. -/
def tooLarge (x : Nat) : Bool := decide (1000000 < x)

/-- Whether `parsenum` accepts the whole of `s` as a number: `s` is a non-empty
run of digits, and the number read so far never is too large when a further
digit comes. -/
def parsesAsNumber : Nat → Bool → Str → Bool
  | _, seen, [] => seen
  | num, _, c :: s =>
    if isDigit c then
      if tooLarge num then false else parsesAsNumber (num * 10 + digitVal c) true s
    else false

/-- Go `fmt.parseArgNumber` on the text that follows an opening bracket, for a
call without operands: `none` when there is no closing bracket or the text has
fewer than three bytes (the bracket alone is skipped), and otherwise whether the
text up to the closing bracket is a number (the text is skipped up to and
including that bracket). -/
def parseArgNumber (rest : Str) : Option Bool :=
  if utf8Len rest + 1 < 3 then none
  else if ']' ∈ rest then some (parsesAsNumber 0 false (rest.takeWhile (fun c => c ≠ ']')))
  else none

/-- Where `doPrintf` stands inside a format string. `good` is `p.goodArgNum`
and `ai` is `afterIndex`. -/
inductive Mode where
  | text
  | flags
  | skipWidth (ai : Bool)
  | widthStart (ai good : Bool)
  | width (num : Nat) (ai good : Bool)
  | dot (ai good : Bool)
  | precArg (good : Bool)
  | skipPrec (ai : Bool)
  | precStart (ai good : Bool)
  | prec (num : Nat) (ai good : Bool)
  | verbArg (good : Bool)
  | skipVerb
  | verb (good : Bool)
  | done
  deriving DecidableEq, Repr

/-- The text `doPrintf` writes for a verb when no operand is left. -/
def verbOut (good : Bool) (c : Char) : Str :=
  if c = '%' then ['%']
  else if good then "%!".toList ++ [c] ++ "(MISSING)".toList
  else "%!".toList ++ [c] ++ "(BADINDEX)".toList

/-- The last `argNumber` call (made when no index came just before) and the
verb. -/
def stepVerb (ai good : Bool) (c : Char) (rest : Str) : Str × Mode :=
  if !ai && c = '[' then
    match parseArgNumber rest with
    | none => ([], .verb false)
    | some _ => ([], .skipVerb)
  else (verbOut good c, .text)

/-- After the optional index that follows the dot of a precision: a star or a
number. -/
def stepPrec (ai good : Bool) (c : Char) (rest : Str) : Str × Mode :=
  if c = '*' then ("%!(BADPREC)".toList, .verbArg good)
  else if isDigit c then ([], .prec (digitVal c) ai good)
  else stepVerb ai good c rest

/-- The dot that starts a precision. -/
def stepDot (ai good : Bool) (c : Char) (rest : Str) : Str × Mode :=
  if c = '.' then ([], .precArg (good && !ai)) else stepVerb ai good c rest

/-- Width: a star or a number. -/
def stepWidth (ai good : Bool) (c : Char) (rest : Str) : Str × Mode :=
  if c = '*' then ("%!(BADWIDTH)".toList, .dot false good)
  else if isDigit c then ([], .width (digitVal c) ai (good && !ai))
  else stepDot ai good c rest

/-- One character of the format string, for a call without operands: the text
written and the next mode. -/
def step0 (m : Mode) (c : Char) (rest : Str) : Str × Mode :=
  match m with
  | .text => if c = '%' then ([], .flags) else ([c], .text)
  | .flags =>
    if c = '#' ∨ c = '0' ∨ c = '+' ∨ c = '-' ∨ c = ' ' then ([], .flags)
    else if c = '[' then
      match parseArgNumber rest with
      | none => ([], .widthStart false false)
      | some ok => ([], .skipWidth ok)
    else stepWidth false true c rest
  | .skipWidth ai => if c = ']' then ([], .widthStart ai false) else ([], .skipWidth ai)
  | .widthStart ai good => stepWidth ai good c rest
  | .width num ai good =>
    if isDigit c then
      if tooLarge num then ("%!(NOVERB)".toList, .done)
      else ([], .width (num * 10 + digitVal c) ai good)
    else stepDot ai good c rest
  | .dot ai good => stepDot ai good c rest
  | .precArg good =>
    if c = '[' then
      match parseArgNumber rest with
      | none => ([], .precStart false false)
      | some ok => ([], .skipPrec ok)
    else stepPrec false good c rest
  | .skipPrec ai => if c = ']' then ([], .precStart ai false) else ([], .skipPrec ai)
  | .precStart ai good => stepPrec ai good c rest
  | .prec num ai good =>
    if isDigit c then
      if tooLarge num then ("%!(NOVERB)".toList, .done)
      else ([], .prec (num * 10 + digitVal c) ai good)
    else stepVerb ai good c rest
  | .verbArg good => stepVerb false good c rest
  | .skipVerb => if c = ']' then ([], .verb false) else ([], .skipVerb)
  | .verb good => (verbOut good c, .text)
  | .done => ([], .done)

/-- Go `fmt` `doPrintf` with an empty operand list, from mode `m` on. -/
def doPrintf0 : Mode → Str → Str
  | .text, [] => []
  | .done, [] => []
  | _, [] => "%!(NOVERB)".toList
  | m, c :: rest => (step0 m c rest).1 ++ doPrintf0 (step0 m c rest).2 rest

/-- Go `fmt.Sprintf(format)` without operands, which is what
`fmt.Fprintf(w, format)` writes. -/
def sprintf0 (format : Str) : Str := doPrintf0 .text format

/-- Where the formatter stands inside a format string, for a call with string
operands: in plain text, after the percent sign and its flags, or inside the
digits of a width. -/
inductive SMode where
  | text
  | flags (minus : Bool)
  | width (minus : Bool) (num : Nat)
  deriving DecidableEq, Repr

/-- Go `fmt` `padString`: pad with blanks to `wid` runes, on the right when the
minus flag is set and on the left otherwise. -/
def padString (minus : Bool) (wid : Nat) (s : Str) : Str :=
  if minus then s ++ List.replicate (wid - s.length) ' '
  else List.replicate (wid - s.length) ' ' ++ s

/-- Go `fmt.Sprintf(format, a...)` for string operands, on the directives the
program uses: `%s` with an optional minus flag and an optional width, and `%%`.
The result is `none` for every other directive, for a missing operand and for
operands left over. -/
def sprintfS : SMode → Str → List Str → Option Str
  | .text, [], [] => some []
  | .text, [], _ :: _ => none
  | .text, c :: format, a =>
    if c = '%' then sprintfS (.flags false) format a
    else (sprintfS .text format a).map (fun out => c :: out)
  | .flags _, [], _ => none
  | .flags minus, c :: format, a =>
    if c = '-' then sprintfS (.flags true) format a
    else if c = '%' then (sprintfS .text format a).map (fun out => '%' :: out)
    else if c = 's' then
      match a with
      | [] => none
      | x :: a' => (sprintfS .text format a').map (fun out => x ++ out)
    else if isDigit c && c != '0' then sprintfS (.width minus (digitVal c)) format a
    else none
  | .width _ _, [], _ => none
  | .width minus num, c :: format, a =>
    if isDigit c then
      if tooLarge num then none else sprintfS (.width minus (num * 10 + digitVal c)) format a
    else if c = '%' then (sprintfS .text format a).map (fun out => '%' :: out)
    else if c = 's' then
      match a with
      | [] => none
      | x :: a' => (sprintfS .text format a').map (fun out => padString minus num x ++ out)
    else none

/-- The text written by `fmt.Fprintf(w, format, a...)` with string operands,
for a format string and operands that `sprintfS` covers (the two format strings
of the program are, see `sprintfS_lineFormat` and `sprintfS_recordFormat`). -/
def fprintfS (format : Str) (a : List Str) : Str :=
  (sprintfS .text format a).getD []

/-! ## The managed-block synchronizer (`writeHosts`) -/

/-- The sentinel token searched for in every line. -/
def token : Str := "# oci_hosts".toList

/-- Format string of the marker line. -/
def markerFormat : Str := "# oci_hosts text below this will be removed\n".toList

/-- Format string of a copied line. -/
def lineFormat : Str := "%s\n".toList

/-- The scan loop of `writeHosts` and the append that follows it, over the
pieces the scanner still has to deliver: the content of the temporary file, or
the scanner's error. -/
def copyLines (hosts : Str) : List Str → Except GoError Str
  | [] => .ok (sprintf0 markerFormat ++ sprintf0 hosts)
  | raw :: rest =>
    if maxScanTokenSize ≤ utf8Len raw then .error errTooLong
    else if contains (dropCR raw) token then .ok (sprintf0 markerFormat ++ sprintf0 hosts)
    else (copyLines hosts rest).map (fun out => fprintfS lineFormat [dropCR raw] ++ out)

/-- `writeHosts(target, hosts)` on a target file with content `file`: the new
content of the target, or the error returned (the target is then unchanged).
Creating the temporary file, opening the target, `Chmod` and `Rename` are taken
to succeed. -/
def writeHosts (file hosts : Str) : Except GoError Str :=
  copyLines hosts (rawLines file)

/-- Content of the target file after a call of `writeHosts`. -/
def fileAfter (file hosts : Str) : Str :=
  match writeHosts file hosts with
  | .ok out => out
  | .error _ => file

/-! ## Provider data and calls -/

/-- Outcome of running a piece of the program: the loop did not finish within
the given number of rounds, a nil pointer was dereferenced, or it returned. -/
inductive Run (α : Type) where
  | hang : Run α
  | crash : Run α
  | ret : α → Run α
  deriving DecidableEq, Repr

/-- Sequencing of outcomes. -/
def Run.bind {α β : Type} : Run α → (α → Run β) → Run β
  | .hang, _ => .hang
  | .crash, _ => .crash
  | .ret a, k => k a

/-- Dereference of a pointer: a nil pointer crashes the program. -/
def deref {α : Type} : Option α → Run α
  | none => .crash
  | some a => .ret a

/-- The fields of `core.Vcn` the program reads. -/
structure Vcn where
  Id : Option Str
  DnsLabel : Option Str
  deriving DecidableEq, Repr

/-- The fields of `core.Subnet` the program reads. -/
structure Subnet where
  Id : Option Str
  DnsLabel : Option Str
  deriving DecidableEq, Repr

/-- The fields of `core.PrivateIp` the program reads. -/
structure PrivateIp where
  IpAddress : Option Str
  HostnameLabel : Option Str
  IsPrimary : Option Bool
  deriving DecidableEq, Repr

/-- The field of `identity.Compartment` the program reads. -/
structure Compartment where
  Id : Option Str
  deriving DecidableEq, Repr

/-- The fields of `core.ListVcnsRequest` the program sets. -/
structure ListVcnsRequest where
  CompartmentId : Option Str
  Page : Option Str
  deriving DecidableEq, Repr

/-- The fields of `core.ListSubnetsRequest` the program sets. -/
structure ListSubnetsRequest where
  CompartmentId : Option Str
  VcnId : Option Str
  Page : Option Str
  deriving DecidableEq, Repr

/-- The fields of `core.ListPrivateIpsRequest` the program sets. -/
structure ListPrivateIpsRequest where
  SubnetId : Option Str
  Page : Option Str
  deriving DecidableEq, Repr

/-- The fields of `identity.ListCompartmentsRequest` the program sets. -/
structure ListCompartmentsRequest where
  CompartmentId : Option Str
  CompartmentIdInSubtree : Option Bool
  Limit : Option Nat
  Page : Option Str
  deriving DecidableEq, Repr

/-- A list response: the items of one page and the cursor of the next page. -/
structure ListResponse (α : Type) where
  Items : List α
  OpcNextPage : Option Str
  deriving DecidableEq, Repr

/-- The list calls of `core.VirtualNetworkClient`, as functions of the request. -/
structure VirtualNetworkClient where
  ListVcns : ListVcnsRequest → Except GoError (ListResponse Vcn)
  ListSubnets : ListSubnetsRequest → Except GoError (ListResponse Subnet)
  ListPrivateIps : ListPrivateIpsRequest → Except GoError (ListResponse PrivateIp)

/-- The list call of `identity.IdentityClient`. -/
structure IdentityClient where
  ListCompartments : ListCompartmentsRequest → Except GoError (ListResponse Compartment)

/-- A `common.ConfigurationProvider`. -/
structure ConfigurationProvider where
  source : String
  deriving DecidableEq, Repr

/-- What the surroundings of the program answer: whether the configuration file
exists, the configuration providers, and the client constructors. -/
structure Env where
  configfileExists : Bool
  DefaultConfigProvider : ConfigurationProvider
  ConfigurationProviderFromFile : Except GoError ConfigurationProvider
  NewVirtualNetworkClientWithConfigurationProvider :
    ConfigurationProvider → Except GoError VirtualNetworkClient
  NewIdentityClientWithConfigurationProvider :
    ConfigurationProvider → Except GoError IdentityClient

/-- `ociConfig()`. -/
def ociConfig (env : Env) : Except GoError ConfigurationProvider :=
  if !env.configfileExists then .ok env.DefaultConfigProvider
  else env.ConfigurationProviderFromFile

/-- What a lister returns: its error value, the state its visitor left, and the
requests it sent, in order. -/
structure Returned (σ ρ : Type) where
  err : Option GoError
  state : σ
  calls : List ρ
  deriving DecidableEq, Repr

/-- The loop `for _, x := range items { f(x) }`. -/
def visitAll {α σ : Type} (f : α → σ → Run σ) : List α → σ → Run σ
  | [], s => .ret s
  | x :: xs, s => (f x s).bind (visitAll f xs)

/-- The `for` loop shared by `privateIPs`, `vcns` and `subnets`: send the
request, return on an error, visit the items, and go on with the next page
cursor when there is one.  `fuel` bounds the number of rounds. -/
def paginate {ρ α σ : Type} (call : ρ → Except GoError (ListResponse α))
    (setPage : ρ → Str → ρ) (f : α → σ → Run σ) : Nat → ρ → σ → Run (Returned σ ρ)
  | 0, _, _ => .hang
  | fuel + 1, req, s =>
    match call req with
    | .error e => .ret ⟨some e, s, [req]⟩
    | .ok resp =>
      (visitAll f resp.Items s).bind fun s' =>
        match resp.OpcNextPage with
        | some page =>
          (paginate call setPage f fuel (setPage req page) s').bind fun r =>
            .ret ⟨r.err, r.state, req :: r.calls⟩
        | none => .ret ⟨none, s', [req]⟩

/-- `privateIPs(subnet, f)`. -/
def privateIPs {σ : Type} (env : Env) (subnet : Option Str) (f : PrivateIp → σ → Run σ)
    (fuel : Nat) (s : σ) : Run (Returned σ ListPrivateIpsRequest) :=
  match ociConfig env with
  | .error e => .ret ⟨some e, s, []⟩
  | .ok configProvider =>
    match env.NewVirtualNetworkClientWithConfigurationProvider configProvider with
    | .error e => .ret ⟨some e, s, []⟩
    | .ok vnClient =>
      paginate vnClient.ListPrivateIps (fun req page => { req with Page := some page }) f fuel
        { SubnetId := subnet, Page := none } s

/-- `vcns(compartment, f)`. -/
def vcns {σ : Type} (env : Env) (compartment : Option Str) (f : Vcn → σ → Run σ)
    (fuel : Nat) (s : σ) : Run (Returned σ ListVcnsRequest) :=
  match ociConfig env with
  | .error e => .ret ⟨some e, s, []⟩
  | .ok configProvider =>
    match env.NewVirtualNetworkClientWithConfigurationProvider configProvider with
    | .error e => .ret ⟨some e, s, []⟩
    | .ok vnClient =>
      paginate vnClient.ListVcns (fun req page => { req with Page := some page }) f fuel
        { CompartmentId := compartment, Page := none } s

/-- `subnets(compartment, vcn, f)`. -/
def subnets {σ : Type} (env : Env) (compartment vcn : Option Str) (f : Subnet → σ → Run σ)
    (fuel : Nat) (s : σ) : Run (Returned σ ListSubnetsRequest) :=
  match ociConfig env with
  | .error e => .ret ⟨some e, s, []⟩
  | .ok configProvider =>
    match env.NewVirtualNetworkClientWithConfigurationProvider configProvider with
    | .error e => .ret ⟨some e, s, []⟩
    | .ok vnClient =>
      paginate vnClient.ListSubnets (fun req page => { req with Page := some page }) f fuel
        { CompartmentId := compartment, VcnId := vcn, Page := none } s

/-- The request `compartments` sends. -/
def compartmentsRequest (compartment : Str) : ListCompartmentsRequest :=
  { CompartmentId := some compartment
    CompartmentIdInSubtree := some (contains compartment "tenancy".toList)
    Limit := some 100
    Page := none }

/-- `compartments(compartment, f)`. -/
def compartments {σ : Type} (env : Env) (compartment : Str) (f : Option Str → σ → Run σ)
    (s : σ) : Run (Returned σ ListCompartmentsRequest) :=
  match ociConfig env with
  | .error e => .ret ⟨some e, s, []⟩
  | .ok configProvider =>
    match env.NewIdentityClientWithConfigurationProvider configProvider with
    | .error e => .ret ⟨some e, s, []⟩
    | .ok idClient =>
      match idClient.ListCompartments (compartmentsRequest compartment) with
      | .error e => .ret ⟨some e, s, [compartmentsRequest compartment]⟩
      | .ok resp =>
        if resp.Items.length = 0 then
          (f (some compartment) s).bind fun s' =>
            .ret ⟨none, s', [compartmentsRequest compartment]⟩
        else
          (visitAll (fun c => f c.Id) resp.Items s).bind fun s' =>
            .ret ⟨none, s', [compartmentsRequest compartment]⟩

/-! ## The walk of `main` -/

/-- The variables of `main` that the visitors update: the `hosts` buffer and
the counter `cnt`. -/
structure Out where
  hosts : Str
  cnt : Nat
  deriving DecidableEq, Repr

/-- Format string of a host record. -/
def recordFormat : Str := "%-20s%s.%s.%s.oraclevcn.com %s.%s %s\n".toList

/-- The callback given to `privateIPs` in `main`.  The debug call dereferences
the address first, whatever the log level. -/
def visitPrivateIp (vcn : Vcn) (subnet : Subnet) (privateIp : PrivateIp) (st : Out) : Run Out :=
  (deref privateIp.IpAddress).bind fun _ =>
  (deref privateIp.IsPrimary).bind fun isPrimary =>
    if isPrimary then
      if privateIp.HostnameLabel ≠ none ∧ privateIp.IpAddress ≠ none then
        (deref privateIp.IpAddress).bind fun ip =>
        (deref privateIp.HostnameLabel).bind fun hostname =>
        (deref subnet.DnsLabel).bind fun subnetLabel =>
        (deref vcn.DnsLabel).bind fun vcnLabel =>
          .ret { hosts := st.hosts ++ fprintfS recordFormat
                   [ip, hostname, subnetLabel, vcnLabel, hostname, subnetLabel, hostname]
                 cnt := st.cnt + 1 }
      else .ret st
    else .ret st

/-- The callback given to `subnets` in `main`: an error of `privateIPs` is
logged and the callback returns. -/
def visitSubnet (env : Env) (fuel : Nat) (vcn : Vcn) (subnet : Subnet) (st : Out) : Run Out :=
  (deref subnet.DnsLabel).bind fun _ =>
  (deref subnet.Id).bind fun _ =>
  (privateIPs env subnet.Id (visitPrivateIp vcn subnet) fuel st).bind fun r =>
    .ret r.state

/-- The callback given to `vcns` in `main`: an error of `subnets` is logged and
the callback returns. -/
def visitVcn (env : Env) (fuel : Nat) (compartment : Option Str) (vcn : Vcn) (st : Out) :
    Run Out :=
  (deref vcn.DnsLabel).bind fun _ =>
  (deref vcn.Id).bind fun _ =>
  (subnets env compartment vcn.Id (visitSubnet env fuel vcn) fuel st).bind fun r =>
    .ret r.state

/-- The callback given to `compartments` in `main`: an error of `vcns` is
logged and the callback returns. -/
def visitCompartment (env : Env) (fuel : Nat) (compartment : Option Str) (st : Out) : Run Out :=
  (deref compartment).bind fun _ =>
  (vcns env compartment (visitVcn env fuel compartment) fuel st).bind fun r =>
    .ret r.state

/-- The walk of `main`: `compartments` with the nested callbacks, from an empty
buffer. -/
def walk (env : Env) (compartment : Str) (fuel : Nat) :
    Run (Returned Out ListCompartmentsRequest) :=
  compartments env compartment (visitCompartment env fuel) { hosts := [], cnt := 0 }

/-- How a run of `main` ends. -/
inductive Exit where
  | hang
  | crash
  | fatal (message : String)
  | wrote (file : Str) (cnt : Nat)
  deriving DecidableEq, Repr

/-- The body of `main` after the command line is parsed: the walk, then
`writeHosts` on the target file with content `file`. -/
def main (env : Env) (compartment : Str) (file : Str) (fuel : Nat) : Exit :=
  match walk env compartment fuel with
  | .hang => .hang
  | .crash => .crash
  | .ret r =>
    match r.err with
    | some _ => .fatal "Could not retrieve compartments"
    | none =>
      match writeHosts file r.state.hosts with
      | .error _ => .fatal "Could not write"
      | .ok out => .wrote out r.state.cnt

/-! ## Notions used to state the properties -/

/-- The lines `ls`, each followed by a line feed. -/
def unlines : List Str → Str
  | [] => []
  | l :: ls => l ++ '\n' :: unlines ls

/-- The lines of the file that come before its first line containing the
sentinel token, as they stand in the file (all lines if there is none). -/
def linesBefore (file : Str) : List Str :=
  (rawLines file).takeWhile (fun l => !contains l token)

/-- The part of the file that precedes its first line containing the sentinel
token, and the whole file when no line contains the token. -/
def preSentinel (file : Str) : Str :=
  if (rawLines file).all (fun l => !contains l token) then file
  else unlines (linesBefore file)

/-- The marker line, with its line feed. -/
def markerLine : Str := "# oci_hosts text below this will be removed\n".toList

/-- The marker line, without its line feed. -/
def markerText : Str := "# oci_hosts text below this will be removed".toList

/-- A visitor that records the items it is called on, in order. -/
def record {α : Type} (x : α) (seen : List α) : Run (List α) := .ret (seen ++ [x])

/-- The state a run returned with, if it returned. -/
def visited {σ ρ : Type} : Run (Returned σ ρ) → Option σ
  | .ret r => some r.state
  | _ => none

/-- The lister run `run`, made with the recording visitor from an empty record,
returns, with or without an error, after visiting exactly `items`. -/
abbrev Visits {α ρ : Type} (run : Run (Returned (List α) ρ)) (items : List α) : Prop :=
  visited run = some items

/-- The provider answers the request `req` and its follow-up requests with the
pages `pages`: every page but the last comes with the cursor of the next request
(`cursors`, in order), the last page comes without cursor. -/
def ServesPages {ρ α : Type} (call : ρ → Except GoError (ListResponse α))
    (setPage : ρ → Str → ρ) : ρ → List (List α) → List Str → Prop
  | req, [items], [] =>
    ∃ resp, call req = .ok resp ∧ resp.Items = items ∧ resp.OpcNextPage = none
  | req, items :: page :: pages, cursor :: cursors =>
    (∃ resp, call req = .ok resp ∧ resp.Items = items ∧ resp.OpcNextPage = some cursor)
      ∧ ServesPages call setPage (setPage req cursor) (page :: pages) cursors
  | _, _, _ => False

/-- The host record of an address with IP literal `ip` and hostname label `h`
in a subnet with DNS label `s` of a network with DNS label `v`. -/
def recordLine (ip h s v : Str) : Str :=
  ip ++ List.replicate (20 - ip.length) ' ' ++ h ++ ".".toList ++ s ++ ".".toList ++ v
    ++ ".oraclevcn.com".toList ++ " ".toList ++ h ++ ".".toList ++ s ++ " ".toList ++ h
    ++ "\n".toList

/-- The records of one address: one line when the address is primary and has an
IP literal and a hostname label, none otherwise. -/
def hostRecords (vcn : Vcn) (subnet : Subnet) (privateIp : PrivateIp) : List Str :=
  match privateIp.IsPrimary, privateIp.IpAddress, privateIp.HostnameLabel,
    subnet.DnsLabel, vcn.DnsLabel with
  | some true, some ip, some h, some s, some v => [recordLine ip h s v]
  | _, _, _, _, _ => []

/-- The variables of `main` after the lines `lines` were written to the buffer
and counted. -/
def emit (st : Out) (lines : List Str) : Out :=
  { hosts := st.hosts ++ lines.flatten, cnt := st.cnt + lines.length }

/-- The hosts buffer at the end of a walk that returned. -/
def hostsOf {ρ : Type} : Run (Returned Out ρ) → Option Str
  | .ret r => some r.state.hosts
  | _ => none

/-- The requests that follow `req` when the cursors `cursors` come back one
after the other. -/
def followUps {ρ : Type} (setPage : ρ → Str → ρ) : ρ → List Str → List ρ
  | _, [] => []
  | req, cursor :: cursors => setPage req cursor :: followUps setPage (setPage req cursor) cursors

/-- The compartments `compartments` hands to its visitor: the input identifier
itself when the listing is empty, the listed compartments otherwise. -/
def compartmentSet (compartment : Str) (resp : ListResponse Compartment) : List (Option Str) :=
  if resp.Items = [] then [some compartment] else resp.Items.map (fun c => c.Id)

/-- The records of a hierarchy, in listing order: `V c` are the networks visited
in compartment `c`, `S c v` the subnets visited in network `v`, and `P sn` the
addresses visited in subnet `sn`. -/
def walkRecords (cs : List Str) (V : Str → List Vcn) (S : Str → Vcn → List Subnet)
    (P : Subnet → List PrivateIp) : List Str :=
  cs.flatMap fun c => (V c).flatMap fun v => (S c v).flatMap fun sn =>
    (P sn).flatMap (hostRecords v sn)

/-! ## Sample tenancies -/

/-- Identifier of the root compartment of the samples. -/
def sampleRoot : Str := "ocid1.tenancy.oc1..root".toList

/-- A tenancy whose root compartment has no child compartment and one network
`prod` with one subnet `web` with one primary address `10.0.0.5` named `app1`. -/
def exampleVn : VirtualNetworkClient where
  ListVcns req :=
    if req = ⟨some sampleRoot, none⟩ then
      .ok ⟨[⟨some "ocid1.vcn.prod".toList, some "prod".toList⟩], none⟩
    else .error "NotAuthorizedOrNotFound"
  ListSubnets req :=
    if req = ⟨some sampleRoot, some "ocid1.vcn.prod".toList, none⟩ then
      .ok ⟨[⟨some "ocid1.subnet.web".toList, some "web".toList⟩], none⟩
    else .error "NotAuthorizedOrNotFound"
  ListPrivateIps req :=
    if req = ⟨some "ocid1.subnet.web".toList, none⟩ then
      .ok ⟨[⟨some "10.0.0.5".toList, some "app1".toList, some true⟩], none⟩
    else .error "NotAuthorizedOrNotFound"

/-- Identity client of a tenancy without child compartments. -/
def exampleId : IdentityClient where
  ListCompartments _ := .ok ⟨[], none⟩

/-- Surroundings of the example tenancy: no configuration file, and both
clients can be built. -/
def exampleEnv : Env where
  configfileExists := false
  DefaultConfigProvider := ⟨"DEFAULT"⟩
  ConfigurationProviderFromFile := .error "no such file"
  NewVirtualNetworkClientWithConfigurationProvider _ := .ok exampleVn
  NewIdentityClientWithConfigurationProvider _ := .ok exampleId

/-- Identity client of a tenancy whose compartment listing comes in two pages:
`c1` with the cursor `page2`, then `c2`. -/
def pagedId : IdentityClient where
  ListCompartments req :=
    if req = compartmentsRequest sampleRoot then
      .ok ⟨[⟨some "ocid1.compartment.c1".toList⟩], some "page2".toList⟩
    else if req = { compartmentsRequest sampleRoot with Page := some "page2".toList } then
      .ok ⟨[⟨some "ocid1.compartment.c2".toList⟩], none⟩
    else .error "NotAuthorizedOrNotFound"

/-- Surroundings of the tenancy with a two-page compartment listing. -/
def pagedEnv : Env where
  configfileExists := false
  DefaultConfigProvider := ⟨"DEFAULT"⟩
  ConfigurationProviderFromFile := .error "no such file"
  NewVirtualNetworkClientWithConfigurationProvider _ := .ok exampleVn
  NewIdentityClientWithConfigurationProvider _ := .ok pagedId

/-- Virtual-network client of a tenancy whose listings come in two pages each,
the first page with the cursor `page2`. -/
def pagedVn : VirtualNetworkClient where
  ListVcns req :=
    if req = ⟨some sampleRoot, none⟩ then
      .ok ⟨[⟨some "ocid1.vcn.a".toList, some "neta".toList⟩], some "page2".toList⟩
    else if req = ⟨some sampleRoot, some "page2".toList⟩ then
      .ok ⟨[⟨some "ocid1.vcn.b".toList, some "netb".toList⟩], none⟩
    else .error "NotAuthorizedOrNotFound"
  ListSubnets req :=
    if req = ⟨some sampleRoot, some "ocid1.vcn.a".toList, none⟩ then
      .ok ⟨[⟨some "ocid1.subnet.a1".toList, some "web".toList⟩], some "page2".toList⟩
    else if req = ⟨some sampleRoot, some "ocid1.vcn.a".toList, some "page2".toList⟩ then
      .ok ⟨[⟨some "ocid1.subnet.a2".toList, some "db".toList⟩], none⟩
    else .error "NotAuthorizedOrNotFound"
  ListPrivateIps req :=
    if req = ⟨some "ocid1.subnet.a1".toList, none⟩ then
      .ok ⟨[⟨some "10.0.0.5".toList, some "app1".toList, some true⟩,
            ⟨some "10.0.0.6".toList, none, some true⟩], some "page2".toList⟩
    else if req = ⟨some "ocid1.subnet.a1".toList, some "page2".toList⟩ then
      .ok ⟨[⟨some "10.0.0.7".toList, some "app2".toList, some true⟩], none⟩
    else .error "NotAuthorizedOrNotFound"

/-- Surroundings of the tenancy with two-page listings. -/
def pagedVnEnv : Env where
  configfileExists := false
  DefaultConfigProvider := ⟨"DEFAULT"⟩
  ConfigurationProviderFromFile := .error "no such file"
  NewVirtualNetworkClientWithConfigurationProvider _ := .ok pagedVn
  NewIdentityClientWithConfigurationProvider _ := .ok exampleId

/-- Network `neta` of the tenancy with a failing branch. -/
def vcnA : Vcn := ⟨some "ocid1.vcn.a".toList, some "neta".toList⟩

/-- Network `netb` of the tenancy with a failing branch. -/
def vcnB : Vcn := ⟨some "ocid1.vcn.b".toList, some "netb".toList⟩

/-- Subnet `web` of network `neta`. -/
def subnetA1 : Subnet := ⟨some "ocid1.subnet.a1".toList, some "web".toList⟩

/-- Virtual-network client of a tenancy with two networks: `neta` has the subnet
`web` with the addresses `addresses`, and the subnet listing of `netb` fails. -/
def branchVn (addresses : List PrivateIp) : VirtualNetworkClient where
  ListVcns req :=
    if req = ⟨some sampleRoot, none⟩ then .ok ⟨[vcnA, vcnB], none⟩
    else .error "NotAuthorizedOrNotFound"
  ListSubnets req :=
    if req = ⟨some sampleRoot, some "ocid1.vcn.a".toList, none⟩ then .ok ⟨[subnetA1], none⟩
    else .error "InternalError"
  ListPrivateIps req :=
    if req = ⟨some "ocid1.subnet.a1".toList, none⟩ then .ok ⟨addresses, none⟩
    else .error "NotAuthorizedOrNotFound"

/-- Surroundings of the tenancy with a failing branch. -/
def branchEnv (addresses : List PrivateIp) : Env where
  configfileExists := false
  DefaultConfigProvider := ⟨"DEFAULT"⟩
  ConfigurationProviderFromFile := .error "no such file"
  NewVirtualNetworkClientWithConfigurationProvider _ := .ok (branchVn addresses)
  NewIdentityClientWithConfigurationProvider _ := .ok exampleId

/-- Addresses of subnet `web`: a primary address with a hostname label and a
primary address without one. -/
def addressesA1 : List PrivateIp :=
  [⟨some "10.0.0.5".toList, some "app1".toList, some true⟩,
   ⟨some "10.0.0.6".toList, none, some true⟩]

/-! ## Lemmas on the library functions -/

theorem doPrintf0_text_of_no_percent (s : Str) (h : '%' ∉ s) : doPrintf0 .text s = s := by
  induction s with
  | nil => rfl
  | cons c s ih =>
    have hc : c ≠ '%' := fun e => h (e ▸ List.mem_cons_self _ _)
    have hs : '%' ∉ s := fun e => h (List.mem_cons_of_mem _ e)
    simp [doPrintf0, step0, hc, ih hs]

theorem sprintf0_of_no_percent (s : Str) (h : '%' ∉ s) : sprintf0 s = s :=
  doPrintf0_text_of_no_percent s h

theorem sprintf0_markerFormat : sprintf0 markerFormat = markerLine := by decide

theorem sprintfS_lineFormat (l : Str) :
    sprintfS .text lineFormat [l] = some (l ++ ['\n']) := by
  simp [lineFormat, sprintfS]

theorem fprintfS_lineFormat (l : Str) : fprintfS lineFormat [l] = l ++ ['\n'] := by
  simp [fprintfS, sprintfS_lineFormat]

theorem contains_iff_infix (s t : Str) : contains s t = true ↔ t <:+: s := by
  induction s with
  | nil => cases t <;> simp [contains]
  | cons c s ih =>
    rw [contains, Bool.or_eq_true, ih, List.infix_cons_iff, List.isPrefixOf_iff_prefix]

theorem dropCR_concat_cr (l : Str) : dropCR (l ++ ['\r']) = l := by
  simp [dropCR]

theorem dropCR_of_not_cr (l : Str) (h : l.getLast? ≠ some '\r') : dropCR l = l := by
  simp [dropCR, h]

theorem dropCR_cases (l : Str) : dropCR l = l ∨ l = dropCR l ++ ['\r'] := by
  by_cases h : l.getLast? = some '\r'
  · right
    obtain ⟨ys, rfl⟩ := List.getLast?_eq_some_iff.mp h
    rw [dropCR_concat_cr]
  · left
    exact dropCR_of_not_cr l h

theorem contains_dropCR (l : Str) : contains (dropCR l) token = contains l token := by
  rcases dropCR_cases l with h | h
  · rw [h]
  · rw [Bool.eq_iff_iff, contains_iff_infix, contains_iff_infix]
    constructor
    · intro hi
      rw [h]
      exact hi.trans (List.infix_append' [] (dropCR l) ['\r'])
    · intro hi
      rw [h, List.infix_concat_iff, List.suffix_concat_iff] at hi
      rcases hi with (hnil | ⟨t, ht, _⟩) | hi
      · exact absurd hnil (by decide)
      · exfalso
        have := congrArg List.getLast? ht
        rw [List.getLast?_concat] at this
        revert this
        decide
      · exact hi

theorem utf8Len_dropCR_le (l : Str) : utf8Len (dropCR l) ≤ utf8Len l := by
  rcases dropCR_cases l with h | h
  · rw [h]
  · conv_rhs => rw [h]
    simp [utf8Len]

theorem not_mem_dropCR (l : Str) (h : '\n' ∉ l) : '\n' ∉ dropCR l := by
  rcases dropCR_cases l with e | e
  · rw [e]; exact h
  · intro hm
    apply h
    rw [e]
    exact List.mem_append_left _ hm

/-! ## Lemmas on lines -/

theorem unlines_append (a b : List Str) : unlines (a ++ b) = unlines a ++ unlines b := by
  induction a with
  | nil => rfl
  | cons l a ih => simp [unlines, ih]

theorem rawLines_no_newline (s : Str) : ∀ l ∈ rawLines s, '\n' ∉ l := by
  induction s with
  | nil => simp [rawLines]
  | cons c cs ih =>
    intro l hl
    rw [rawLines] at hl
    split at hl
    · rcases List.mem_cons.mp hl with rfl | h
      · simp
      · exact ih l h
    · rename_i hc
      split at hl
      · rcases List.mem_singleton.mp hl with rfl
        simpa using Ne.symm hc
      · rename_i l0 ls heq
        rcases List.mem_cons.mp hl with rfl | h
        · have := ih l0 (by rw [heq]; exact List.mem_cons_self _ _)
          simp only [List.mem_cons, not_or]
          exact ⟨Ne.symm hc, this⟩
        · exact ih l (by rw [heq]; exact List.mem_cons_of_mem _ h)

theorem rawLines_line (l rest : Str) (h : '\n' ∉ l) :
    rawLines (l ++ '\n' :: rest) = l :: rawLines rest := by
  induction l with
  | nil => simp [rawLines]
  | cons c l ih =>
    have hc : c ≠ '\n' := fun e => h (e ▸ List.mem_cons_self _ _)
    have hl : '\n' ∉ l := fun e => h (List.mem_cons_of_mem _ e)
    simp [rawLines, hc, ih hl]

theorem rawLines_unlines_append (ls : List Str) (rest : Str) (h : ∀ l ∈ ls, '\n' ∉ l) :
    rawLines (unlines ls ++ rest) = ls ++ rawLines rest := by
  induction ls with
  | nil => rfl
  | cons l ls ih =>
    have h1 : '\n' ∉ l := h l (List.mem_cons_self _ _)
    have h2 : ∀ l' ∈ ls, '\n' ∉ l' := fun l' hl' => h l' (List.mem_cons_of_mem _ hl')
    simp only [unlines, List.append_assoc, List.cons_append]
    rw [rawLines_line _ _ h1, ih h2]

theorem unlines_rawLines (s : Str) :
    unlines (rawLines s) = s ∨ unlines (rawLines s) = s ++ ['\n'] := by
  induction s with
  | nil => left; rfl
  | cons c cs ih =>
    rw [rawLines]
    split
    · rename_i hc
      subst hc
      rcases ih with h | h
      · left; simp [unlines, h]
      · right; simp [unlines, h]
    · split
      · rename_i heq
        rw [heq] at ih
        have hcs : cs = [] := by
          rcases ih with h | h
          · exact h.symm
          · simp [unlines] at h
        subst hcs
        right; rfl
      · rename_i l0 ls heq
        rw [heq] at ih
        rcases ih with h | h
        · left
          simp only [unlines, List.cons_append] at h ⊢
          rw [h]
        · right
          simp only [unlines, List.cons_append] at h ⊢
          rw [h]

theorem unlines_prefix_of_more (s : Str) (a : List Str) (b : Str) (c : List Str)
    (h : rawLines s = a ++ b :: c) : unlines a <+: s := by
  have hu : unlines (rawLines s) = unlines a ++ (b ++ '\n' :: unlines c) := by
    rw [h, unlines_append]; rfl
  rcases unlines_rawLines s with e | e
  · rw [e] at hu
    exact ⟨_, hu.symm⟩
  · rw [e] at hu
    have h1 : unlines a <+: s ++ ['\n'] := ⟨_, hu.symm⟩
    have h2 : s <+: s ++ ['\n'] := List.prefix_append _ _
    refine List.prefix_of_prefix_length_le h1 h2 ?_
    have := congrArg List.length hu
    simp at this
    omega

theorem prefix_unlines_rawLines (s : Str) : s <+: unlines (rawLines s) := by
  rcases unlines_rawLines s with e | e
  · rw [e]
  · rw [e]; exact List.prefix_append _ _

theorem preSentinel_prefix (file : Str) : preSentinel file <+: file := by
  unfold preSentinel
  split
  · exact List.prefix_refl _
  · rename_i h
    have hd : (rawLines file).dropWhile (fun l => !contains l token) ≠ [] := by
      intro e
      apply h
      rw [List.dropWhile_eq_nil_iff] at e
      rw [List.all_eq_true]
      exact e
    obtain ⟨b, c, hbc⟩ := List.exists_cons_of_ne_nil hd
    have := List.takeWhile_append_dropWhile (fun l => !contains l token) (rawLines file)
    rw [hbc] at this
    exact unlines_prefix_of_more file _ b c this.symm

/-! ## Lemmas on `writeHosts` -/

theorem copyLines_ok (hosts : Str) (ls : List Str) (out : Str)
    (h : copyLines hosts ls = .ok out) :
    out = unlines ((ls.takeWhile (fun l => !contains l token)).map dropCR)
        ++ (markerLine ++ sprintf0 hosts)
    ∧ ∀ l ∈ ls.takeWhile (fun l => !contains l token), utf8Len l < maxScanTokenSize := by
  induction ls generalizing out with
  | nil =>
    simp only [copyLines, Except.ok.injEq, sprintf0_markerFormat] at h
    simp [unlines, h]
  | cons raw rest ih =>
    rw [copyLines] at h
    split at h
    · exact absurd h (by simp)
    · rename_i hlen
      split at h
      · rename_i hc
        rw [contains_dropCR] at hc
        simp only [Except.ok.injEq, sprintf0_markerFormat] at h
        simp [List.takeWhile, hc, unlines, h]
      · rename_i hc
        rw [contains_dropCR] at hc
        cases hrest : copyLines hosts rest with
        | error e => rw [hrest] at h; exact absurd h (by simp [Except.map])
        | ok out' =>
          rw [hrest] at h
          simp only [Except.map, Except.ok.injEq, fprintfS_lineFormat] at h
          obtain ⟨h1, h2⟩ := ih out' hrest
          have hc' : contains raw token = false := by simpa using hc
          constructor
          · simp only [List.takeWhile, hc', Bool.not_false, List.map_cons, unlines]
            rw [← h, h1]
            simp
          · intro l hl
            simp only [List.takeWhile, hc', Bool.not_false, List.mem_cons] at hl
            rcases hl with rfl | hl
            · omega
            · exact h2 l hl

theorem copyLines_rerun (hosts : Str) (p : List Str) (rest : List Str)
    (h1 : ∀ l ∈ p, utf8Len l < maxScanTokenSize)
    (h2 : ∀ l ∈ p, contains (dropCR l) token = false) :
    copyLines hosts (p ++ markerText :: rest)
      = .ok (unlines (p.map dropCR) ++ (markerLine ++ sprintf0 hosts)) := by
  induction p with
  | nil =>
    have e1 : ¬ maxScanTokenSize ≤ utf8Len markerText := by decide
    have e2 : contains (dropCR markerText) token = true := by decide
    rw [List.nil_append, copyLines, if_neg e1, if_pos e2, sprintf0_markerFormat]
    rfl
  | cons l p ih =>
    have a1 : ¬ maxScanTokenSize ≤ utf8Len l := by
      have := h1 l (List.mem_cons_self _ _); omega
    have a2 := h2 l (List.mem_cons_self _ _)
    have ih' := ih (fun l' hl' => h1 l' (List.mem_cons_of_mem _ hl'))
      (fun l' hl' => h2 l' (List.mem_cons_of_mem _ hl'))
    rw [List.cons_append, copyLines, if_neg a1, a2, ih']
    simp [Except.map, fprintfS_lineFormat, unlines]

theorem writeHosts_ok (file hosts out : Str) (h : writeHosts file hosts = .ok out) :
    out = unlines ((linesBefore file).map dropCR) ++ (markerLine ++ sprintf0 hosts) :=
  (copyLines_ok hosts (rawLines file) out h).1

theorem copyLines_total (hosts : Str) (ls : List Str)
    (h : ∀ l ∈ ls, utf8Len l < maxScanTokenSize) : ∃ out, copyLines hosts ls = .ok out := by
  induction ls with
  | nil => exact ⟨_, rfl⟩
  | cons raw rest ih =>
    have a1 : ¬ maxScanTokenSize ≤ utf8Len raw := by
      have := h raw (List.mem_cons_self _ _); omega
    obtain ⟨out', ho⟩ := ih (fun l hl => h l (List.mem_cons_of_mem _ hl))
    rw [copyLines]
    simp only [a1, if_false]
    split
    · exact ⟨_, rfl⟩
    · exact ⟨_, by rw [ho]; rfl⟩

/-- When every line of the target file is shorter than the scanner's limit,
`writeHosts` returns without error. -/
theorem writeHosts_total (file hosts : Str)
    (h : ∀ l ∈ rawLines file, utf8Len l < maxScanTokenSize) :
    ∃ out, writeHosts file hosts = .ok out :=
  copyLines_total hosts (rawLines file) h

theorem dropCR_idem_of_not_crcr (l : Str) (h : ¬ ['\r', '\r'] <:+ l) :
    dropCR (dropCR l) = dropCR l := by
  rcases dropCR_cases l with e | e
  · rw [e]; exact e
  · apply dropCR_of_not_cr
    intro hl
    obtain ⟨ys, hys⟩ := List.getLast?_eq_some_iff.mp hl
    apply h
    rw [e, hys]
    exact ⟨ys, by simp⟩

theorem rawLines_written (p : List Str) (hosts : Str) (h : ∀ l ∈ p, '\n' ∉ l) :
    rawLines (unlines p ++ (markerLine ++ sprintf0 hosts))
      = p ++ markerText :: rawLines (sprintf0 hosts) := by
  rw [rawLines_unlines_append _ _ h]
  have e : markerLine ++ sprintf0 hosts = markerText ++ '\n' :: sprintf0 hosts := by
    have : markerLine = markerText ++ ['\n'] := by decide
    rw [this]; simp
  rw [e, rawLines_line _ _ (by decide)]

/-! ## The synchronizer: idempotence, preserved lines, managed block -/

/-- C1, as stated, fails: on a target file whose only line ends in two carriage
returns, the second run of `writeHosts` with the same buffer changes the file
again (the first run drops one carriage return, the second run the other). -/
theorem writeHosts_twice_differs :
    fileAfter "a\r\r\n".toList "h\n".toList
        = "a\r\n# oci_hosts text below this will be removed\nh\n".toList
    ∧ fileAfter (fileAfter "a\r\r\n".toList "h\n".toList) "h\n".toList
        = "a\n# oci_hosts text below this will be removed\nh\n".toList
    ∧ fileAfter (fileAfter "a\r\r\n".toList "h\n".toList) "h\n".toList
        ≠ fileAfter "a\r\r\n".toList "h\n".toList := by
  decide

/-- C1 (amended): when no line of the target file before its first sentinel
line ends in two carriage returns, running `writeHosts` a second time with the
same generated buffer leaves the file as the first run left it. -/
theorem writeHosts_idempotent (file hosts : Str)
    (h : ∀ l ∈ linesBefore file, ¬ ['\r', '\r'] <:+ l) :
    fileAfter (fileAfter file hosts) hosts = fileAfter file hosts := by
  cases h1 : writeHosts file hosts with
  | error e => simp [fileAfter, h1]
  | ok out =>
    have hout := writeHosts_ok file hosts out h1
    have hshort := (copyLines_ok hosts (rawLines file) out h1).2
    have hmem : ∀ l ∈ linesBefore file, l ∈ rawLines file := fun l hl =>
      (List.takeWhile_sublist _).subset hl
    have h2 : writeHosts out hosts = .ok out := by
      rw [writeHosts]
      conv_lhs => rw [hout]
      rw [rawLines_written, copyLines_rerun]
      · rw [List.map_map]
        have : List.map (dropCR ∘ dropCR) (linesBefore file) = List.map dropCR (linesBefore file) :=
          List.map_congr_left (fun l hl => dropCR_idem_of_not_crcr l (h l hl))
        rw [this, ← hout]
      · intro l hl
        obtain ⟨l0, hl0, rfl⟩ := List.mem_map.mp hl
        exact lt_of_le_of_lt (utf8Len_dropCR_le l0) (hshort l0 hl0)
      · intro l hl
        obtain ⟨l0, hl0, rfl⟩ := List.mem_map.mp hl
        rw [contains_dropCR, contains_dropCR]
        have := List.mem_takeWhile_imp hl0
        simpa using this
      · intro l hl
        obtain ⟨l0, hl0, rfl⟩ := List.mem_map.mp hl
        exact not_mem_dropCR l0 (rawLines_no_newline file l0 (hmem l0 hl0))
    simp [fileAfter, h1, h2]

/-- C1 (amended), on a file with a line ending in a carriage return and a line
feed, a sentinel line and an old managed block. -/
theorem writeHosts_idempotent_witness :
    fileAfter (fileAfter "a\r\nb\n# oci_hosts\nold\n".toList "h\n".toList) "h\n".toList
      = fileAfter "a\r\nb\n# oci_hosts\nold\n".toList "h\n".toList :=
  writeHosts_idempotent "a\r\nb\n# oci_hosts\nold\n".toList "h\n".toList (by decide)

/-- C2, as stated, fails: on a target file whose line ends in a carriage return
and a line feed, the file written does not begin with that line. -/
theorem writeHosts_alters_crlf :
    writeHosts "a\r\n".toList "h\n".toList
        = .ok "a\n# oci_hosts text below this will be removed\nh\n".toList
    ∧ preSentinel "a\r\n".toList = "a\r\n".toList
    ∧ ¬ preSentinel "a\r\n".toList
        <+: "a\n# oci_hosts text below this will be removed\nh\n".toList := by
  decide

/-- C2 (amended): the file written by `writeHosts` begins with the lines of the
target file that precede its first sentinel line, each with one trailing
carriage return dropped and followed by a line feed; when none of these lines
ends in a carriage return, it begins, byte for byte, with the part of the target
file that precedes the first sentinel line, and with the whole file when no line
contains the token. -/
theorem writeHosts_keeps_lines (file hosts out : Str) (h : writeHosts file hosts = .ok out) :
    unlines ((linesBefore file).map dropCR) <+: out
    ∧ ((∀ l ∈ linesBefore file, l.getLast? ≠ some '\r') → preSentinel file <+: out) := by
  have hout := writeHosts_ok file hosts out h
  refine ⟨⟨_, hout.symm⟩, fun hcr => ?_⟩
  have hid : (linesBefore file).map dropCR = linesBefore file := by
    conv_rhs => rw [← List.map_id (linesBefore file)]
    exact List.map_congr_left (fun l hl => dropCR_of_not_cr l (hcr l hl))
  rw [hid] at hout
  unfold preSentinel
  split
  · rename_i hall
    have hall' : linesBefore file = rawLines file := by
      unfold linesBefore
      rw [List.takeWhile_eq_self_iff]
      exact List.all_eq_true.mp hall
    rw [hall'] at hout
    exact (prefix_unlines_rawLines file).trans ⟨_, hout.symm⟩
  · exact ⟨_, hout.symm⟩

/-- C2 (amended), on a file with two lines before its sentinel line. -/
theorem writeHosts_keeps_lines_witness :
    unlines ((linesBefore "127.0.0.1 localhost\nb\n# oci_hosts\nold\n".toList).map dropCR)
        <+: "127.0.0.1 localhost\nb\n# oci_hosts text below this will be removed\nh\n".toList
    ∧ preSentinel "127.0.0.1 localhost\nb\n# oci_hosts\nold\n".toList
        <+: "127.0.0.1 localhost\nb\n# oci_hosts text below this will be removed\nh\n".toList :=
  ⟨(writeHosts_keeps_lines "127.0.0.1 localhost\nb\n# oci_hosts\nold\n".toList "h\n".toList
      "127.0.0.1 localhost\nb\n# oci_hosts text below this will be removed\nh\n".toList
      (by decide)).1,
   (writeHosts_keeps_lines "127.0.0.1 localhost\nb\n# oci_hosts\nold\n".toList "h\n".toList
      "127.0.0.1 localhost\nb\n# oci_hosts text below this will be removed\nh\n".toList
      (by decide)).2 (by decide)⟩

set_option maxRecDepth 8000 in
/-- C3 fails on a buffer with a percent sign: `writeHosts` passes the buffer to
`Fprintf` as the format string, so for the record of a host labelled `a%sb` the
file written holds `a%!s(MISSING)b` in place of the label, and is not the copied
lines, the marker line and the buffer. -/
theorem writeHosts_percent :
    writeHosts "127.0.0.1 localhost\n".toList
        "10.0.0.5            a%sb.web.prod.oraclevcn.com a%sb.web a%sb\n".toList
      = .ok ("127.0.0.1 localhost\n# oci_hosts text below this will be removed\n".toList
          ++ ("10.0.0.5            a%!s(MISSING)b.web.prod.oraclevcn.com ".toList
            ++ "a%!s(MISSING)b.web a%!s(MISSING)b\n".toList))
    ∧ writeHosts "127.0.0.1 localhost\n".toList
        "10.0.0.5            a%sb.web.prod.oraclevcn.com a%sb.web a%sb\n".toList
      ≠ .ok ("127.0.0.1 localhost\n".toList ++ markerLine
          ++ "10.0.0.5            a%sb.web.prod.oraclevcn.com a%sb.web a%sb\n".toList) := by
  decide

/-- For a buffer without percent sign, the file written is the copied lines, the
marker line and the buffer. -/
theorem writeHosts_no_percent (file hosts out : Str) (hp : '%' ∉ hosts)
    (h : writeHosts file hosts = .ok out) :
    out = unlines ((linesBefore file).map dropCR) ++ (markerLine ++ hosts) := by
  rw [writeHosts_ok file hosts out h, sprintf0_of_no_percent hosts hp]

/-! ## The leaf visitor and the record format -/

theorem sprintfS_recordFormat (ip h s v : Str) :
    sprintfS .text recordFormat [ip, h, s, v, h, s, h] = some (recordLine ip h s v) := by
  simp [recordFormat, sprintfS, padString, isDigit, digitVal, tooLarge, recordLine]

theorem fprintfS_recordFormat (ip h s v : Str) :
    fprintfS recordFormat [ip, h, s, v, h, s, h] = recordLine ip h s v := by
  simp [fprintfS, sprintfS_recordFormat]

/-- C4 fails on an address without IP literal: the debug call at the head of the
callback dereferences `private.IpAddress` before the callback tests it, so the
callback crashes, whatever the other fields are. -/
theorem visitPrivateIp_crash_without_ip (vcn : Vcn) (subnet : Subnet)
    (hostname : Option Str) (isPrimary : Option Bool) (st : Out) :
    visitPrivateIp vcn subnet ⟨none, hostname, isPrimary⟩ st = .crash := by
  rfl

/-- An address with an IP literal that is not primary, or has no hostname label,
leaves the buffer and the counter as they are. -/
theorem visitPrivateIp_skip (vcn : Vcn) (subnet : Subnet) (ip : Str) (hostname : Option Str)
    (isPrimary : Bool) (st : Out) (h : isPrimary = false ∨ hostname = none) :
    visitPrivateIp vcn subnet ⟨some ip, hostname, some isPrimary⟩ st = .ret st := by
  rcases h with h | h
  · subst h; simp [visitPrivateIp, deref, Run.bind]
  · subst h; cases isPrimary <;> simp [visitPrivateIp, deref, Run.bind]

/-- C5: for a primary address with IP literal `ip` and hostname label `h`, in a
subnet with DNS label `s` of a network with DNS label `v`, the callback appends
to the buffer exactly `ip`, `20 - length ip` blanks (none when `ip` has twenty
characters or more), and `h.s.v.oraclevcn.com h.s h` with a line feed, whatever
characters the labels hold, and counts one line. -/
theorem visitPrivateIp_record (vcn : Vcn) (subnet : Subnet) (privateIp : PrivateIp) (st : Out)
    (ip h s v : Str) (hip : privateIp.IpAddress = some ip)
    (hh : privateIp.HostnameLabel = some h) (hp : privateIp.IsPrimary = some true)
    (hs : subnet.DnsLabel = some s) (hv : vcn.DnsLabel = some v) :
    visitPrivateIp vcn subnet privateIp st
      = .ret { hosts := st.hosts ++ (ip ++ List.replicate (20 - ip.length) ' ' ++ h ++ ".".toList
                 ++ s ++ ".".toList ++ v ++ ".oraclevcn.com".toList ++ " ".toList ++ h
                 ++ ".".toList ++ s ++ " ".toList ++ h ++ "\n".toList)
               cnt := st.cnt + 1 } := by
  simp only [visitPrivateIp, hip, hh, hp, hs, hv, deref, Run.bind, fprintfS_recordFormat]
  simp [recordLine]

/-- C5, on the address `10.0.0.5` named `app1` in subnet `web` of network
`prod`. -/
theorem visitPrivateIp_record_witness :
    visitPrivateIp ⟨some "ocid1.vcn.prod".toList, some "prod".toList⟩
        ⟨some "ocid1.subnet.web".toList, some "web".toList⟩
        ⟨some "10.0.0.5".toList, some "app1".toList, some true⟩ ⟨[], 0⟩
      = .ret { hosts := [] ++ ("10.0.0.5".toList
                 ++ List.replicate (20 - "10.0.0.5".toList.length) ' ' ++ "app1".toList
                 ++ ".".toList ++ "web".toList ++ ".".toList ++ "prod".toList
                 ++ ".oraclevcn.com".toList ++ " ".toList ++ "app1".toList ++ ".".toList
                 ++ "web".toList ++ " ".toList ++ "app1".toList ++ "\n".toList)
               cnt := 0 + 1 } :=
  visitPrivateIp_record _ _ _ _ "10.0.0.5".toList "app1".toList "web".toList "prod".toList
    rfl rfl rfl rfl rfl

/-! ## The compartment level -/

/-- C8: when the configuration and the identity client are available and the
compartment listing for `c` succeeds with zero compartments, `compartments`
sends one request, calls the visitor once, on `c` itself, and returns no
error. -/
theorem compartments_self_inclusion {σ : Type} (env : Env) (c : Str) (g : Option Str → σ → σ)
    (s : σ) (configProvider : ConfigurationProvider) (idClient : IdentityClient)
    (resp : ListResponse Compartment) (hcfg : ociConfig env = .ok configProvider)
    (hid : env.NewIdentityClientWithConfigurationProvider configProvider = .ok idClient)
    (hlist : idClient.ListCompartments (compartmentsRequest c) = .ok resp)
    (hzero : resp.Items = []) :
    compartments env c (fun x s => .ret (g x s)) s
      = .ret ⟨none, g (some c) s, [compartmentsRequest c]⟩ := by
  simp [compartments, hcfg, hid, hlist, hzero, Run.bind]

/-- C8, on the example tenancy, with a visitor that records its argument. -/
theorem compartments_self_inclusion_witness :
    compartments exampleEnv sampleRoot (fun x s => .ret (s ++ [x])) []
      = .ret ⟨none, [] ++ [some sampleRoot], [compartmentsRequest sampleRoot]⟩ :=
  compartments_self_inclusion exampleEnv sampleRoot (fun x s => s ++ [x]) []
    ⟨"DEFAULT"⟩ exampleId ⟨[], none⟩ rfl rfl rfl rfl

/-- C9 fails on a compartment listing of two pages: `compartments` sends a single
request and visits the compartment of the first page only, although the first
response carries the cursor of a second page, which holds another
compartment. -/
theorem compartments_first_page_only :
    compartments pagedEnv sampleRoot record []
        = .ret ⟨none, [some "ocid1.compartment.c1".toList], [compartmentsRequest sampleRoot]⟩
    ∧ pagedId.ListCompartments (compartmentsRequest sampleRoot)
        = .ok ⟨[⟨some "ocid1.compartment.c1".toList⟩], some "page2".toList⟩
    ∧ pagedId.ListCompartments { compartmentsRequest sampleRoot with Page := some "page2".toList }
        = .ok ⟨[⟨some "ocid1.compartment.c2".toList⟩], none⟩ := by
  decide

/-! ## Pagination -/

theorem Run.bind_ret {α β : Type} (a : α) (k : α → Run β) : (Run.ret a).bind k = k a := rfl

theorem Run.bind_assoc {α β γ : Type} (x : Run α) (k : α → Run β) (k' : β → Run γ) :
    (x.bind k).bind k' = x.bind (fun a => (k a).bind k') := by
  cases x <;> rfl

theorem visitAll_append {α σ : Type} (f : α → σ → Run σ) (xs ys : List α) (s : σ) :
    visitAll f (xs ++ ys) s = (visitAll f xs s).bind (visitAll f ys) := by
  induction xs generalizing s with
  | nil => rfl
  | cons x xs ih =>
    simp only [List.cons_append, visitAll, Run.bind_assoc]
    congr 1
    funext s'
    exact ih s'

theorem visitAll_pure {α σ : Type} (g : α → σ → σ) (xs : List α) (s : σ) :
    visitAll (fun x s => .ret (g x s)) xs s = .ret (xs.foldl (fun s x => g x s) s) := by
  induction xs generalizing s with
  | nil => rfl
  | cons x xs ih => simp [visitAll, Run.bind, ih]

theorem visitAll_record {α : Type} (xs seen : List α) :
    visitAll record xs seen = .ret (seen ++ xs) := by
  induction xs generalizing seen with
  | nil => simp [visitAll]
  | cons x xs ih => simp [visitAll, record, Run.bind, ih]

theorem servesPages_length {ρ α : Type} (call : ρ → Except GoError (ListResponse α))
    (setPage : ρ → Str → ρ) (req : ρ) (pages : List (List α)) (cursors : List Str)
    (h : ServesPages call setPage req pages cursors) : pages.length = cursors.length + 1 := by
  induction cursors generalizing req pages with
  | nil =>
    match pages, h with
    | [_], _ => rfl
  | cons c cs ih =>
    match pages, h with
    | _ :: page :: pages, h =>
      have := ih _ _ h.2
      simp only [List.length_cons] at this ⊢
      omega

theorem paginate_serves {ρ α σ : Type} (call : ρ → Except GoError (ListResponse α))
    (setPage : ρ → Str → ρ) (f : α → σ → Run σ) (fuel : Nat) (req : ρ)
    (pages : List (List α)) (cursors : List Str) (s : σ)
    (h : ServesPages call setPage req pages cursors) (hfuel : pages.length ≤ fuel) :
    paginate call setPage f fuel req s
      = (visitAll f pages.flatten s).bind fun s' =>
          .ret ⟨none, s', req :: followUps setPage req cursors⟩ := by
  induction cursors generalizing req pages s fuel with
  | nil =>
    match pages, h, fuel, hfuel with
    | [items], ⟨resp, h1, h2, h3⟩, fuel + 1, _ =>
      subst h2
      simp [paginate, h1, h3, followUps]
  | cons c cs ih =>
    match pages, h, fuel, hfuel with
    | items :: page :: pages, ⟨⟨resp, h1, h2, h3⟩, hrest⟩, fuel + 1, hfuel =>
      subst h2
      have hf : (page :: pages).length ≤ fuel := by
        simp only [List.length_cons] at hfuel ⊢
        omega
      simp only [paginate, h1, h3, List.flatten_cons, visitAll_append, Run.bind_assoc,
        followUps]
      congr 1
      funext s'
      rw [ih fuel _ _ s' hrest hf]
      simp only [List.flatten_cons, visitAll_append, Run.bind_assoc, Run.bind_ret]

theorem paginate_of_record {ρ α : Type} (call : ρ → Except GoError (ListResponse α))
    (setPage : ρ → Str → ρ) (fuel : Nat) (req : ρ) (seen : List α)
    (r : Returned (List α) ρ) (h : paginate call setPage record fuel req seen = .ret r) :
    ∃ items, r.state = seen ++ items ∧
      ∀ (σ : Type) (f : α → σ → Run σ) (s : σ),
        paginate call setPage f fuel req s
          = (visitAll f items s).bind fun s' => .ret ⟨r.err, s', r.calls⟩ := by
  induction fuel generalizing req seen r with
  | zero => simp [paginate] at h
  | succ fuel ih =>
    rw [paginate] at h
    cases hc : call req with
    | error e =>
      rw [hc] at h
      simp only [Run.ret.injEq] at h
      subst h
      exact ⟨[], by simp, fun σ f s => by simp [paginate, hc, visitAll, Run.bind]⟩
    | ok resp =>
      rw [hc] at h
      simp only [visitAll_record, Run.bind_ret] at h
      cases hn : resp.OpcNextPage with
      | none =>
        simp only [hn, Run.ret.injEq] at h
        subst h
        exact ⟨resp.Items, rfl, fun σ f s => by simp [paginate, hc, hn]⟩
      | some page =>
        simp only [hn] at h
        cases hrec : paginate call setPage record fuel (setPage req page) (seen ++ resp.Items) with
        | hang => rw [hrec] at h; simp [Run.bind] at h
        | crash => rw [hrec] at h; simp [Run.bind] at h
        | ret r' =>
          rw [hrec] at h
          simp only [Run.bind_ret, Run.ret.injEq] at h
          subst h
          obtain ⟨items, h1, h2⟩ := ih _ _ _ hrec
          refine ⟨resp.Items ++ items, by simp [h1], fun σ f s => ?_⟩
          simp only [paginate, hc, hn, visitAll_append, Run.bind_assoc]
          congr 1
          funext s'
          rw [h2 σ f s']
          simp only [Run.bind_assoc, Run.bind_ret]

theorem followUps_vcns (compartment : Option Str) (page : Option Str) (cursors : List Str) :
    followUps (fun (req : ListVcnsRequest) page => { req with Page := some page })
        ⟨compartment, page⟩ cursors
      = cursors.map (fun c => ⟨compartment, some c⟩) := by
  induction cursors generalizing page with
  | nil => rfl
  | cons c cs ih => simp [followUps, ih]

theorem followUps_subnets (compartment vcn : Option Str) (page : Option Str)
    (cursors : List Str) :
    followUps (fun (req : ListSubnetsRequest) page => { req with Page := some page })
        ⟨compartment, vcn, page⟩ cursors
      = cursors.map (fun c => ⟨compartment, vcn, some c⟩) := by
  induction cursors generalizing page with
  | nil => rfl
  | cons c cs ih => simp [followUps, ih]

theorem followUps_privateIPs (subnet : Option Str) (page : Option Str) (cursors : List Str) :
    followUps (fun (req : ListPrivateIpsRequest) page => { req with Page := some page })
        ⟨subnet, page⟩ cursors
      = cursors.map (fun c => ⟨subnet, some c⟩) := by
  induction cursors generalizing page with
  | nil => rfl
  | cons c cs ih => simp [followUps, ih]

/-- C6: when the configuration and the client are available and the provider
answers a lister's first request (empty cursor) and its follow-up requests with
N >= 1 pages, each page but the last with a cursor and the last without, then
each of `vcns`, `subnets` and `privateIPs` returns no error, has called the
visitor once on every item of every page, in page order then item order, and has
sent exactly N requests: the first without cursor, the k-th with the cursor that
came with page k-1. -/
theorem listers_visit_every_page {σ : Type} (env : Env) (configProvider : ConfigurationProvider)
    (vnClient : VirtualNetworkClient) (compartment vcn subnet : Option Str)
    (gv : Vcn → σ → σ) (gs : Subnet → σ → σ) (gp : PrivateIp → σ → σ) (s : σ)
    (vcnPages : List (List Vcn)) (subnetPages : List (List Subnet))
    (ipPages : List (List PrivateIp)) (vcnCursors subnetCursors ipCursors : List Str)
    (fuel : Nat)
    (hcfg : ociConfig env = .ok configProvider)
    (hvn : env.NewVirtualNetworkClientWithConfigurationProvider configProvider = .ok vnClient)
    (hV : ServesPages vnClient.ListVcns (fun req page => { req with Page := some page })
      ⟨compartment, none⟩ vcnPages vcnCursors)
    (hS : ServesPages vnClient.ListSubnets (fun req page => { req with Page := some page })
      ⟨compartment, vcn, none⟩ subnetPages subnetCursors)
    (hP : ServesPages vnClient.ListPrivateIps (fun req page => { req with Page := some page })
      ⟨subnet, none⟩ ipPages ipCursors)
    (hfV : vcnPages.length ≤ fuel) (hfS : subnetPages.length ≤ fuel)
    (hfP : ipPages.length ≤ fuel) :
    (vcns env compartment (fun x s => .ret (gv x s)) fuel s
        = .ret ⟨none, vcnPages.flatten.foldl (fun s x => gv x s) s,
            ⟨compartment, none⟩ :: vcnCursors.map (fun c => ⟨compartment, some c⟩)⟩
      ∧ (vcnCursors.map (fun c => (⟨compartment, some c⟩ : ListVcnsRequest))).length + 1
          = vcnPages.length)
    ∧ (subnets env compartment vcn (fun x s => .ret (gs x s)) fuel s
        = .ret ⟨none, subnetPages.flatten.foldl (fun s x => gs x s) s,
            ⟨compartment, vcn, none⟩ :: subnetCursors.map (fun c => ⟨compartment, vcn, some c⟩)⟩
      ∧ (subnetCursors.map (fun c => (⟨compartment, vcn, some c⟩ : ListSubnetsRequest))).length + 1
          = subnetPages.length)
    ∧ (privateIPs env subnet (fun x s => .ret (gp x s)) fuel s
        = .ret ⟨none, ipPages.flatten.foldl (fun s x => gp x s) s,
            ⟨subnet, none⟩ :: ipCursors.map (fun c => ⟨subnet, some c⟩)⟩
      ∧ (ipCursors.map (fun c => (⟨subnet, some c⟩ : ListPrivateIpsRequest))).length + 1
          = ipPages.length) := by
  refine ⟨⟨?_, ?_⟩, ⟨?_, ?_⟩, ⟨?_, ?_⟩⟩
  · simp only [vcns, hcfg, hvn]
    rw [paginate_serves _ _ _ _ _ _ _ _ hV hfV, visitAll_pure, Run.bind_ret, followUps_vcns]
  · rw [List.length_map, servesPages_length _ _ _ _ _ hV]
  · simp only [subnets, hcfg, hvn]
    rw [paginate_serves _ _ _ _ _ _ _ _ hS hfS, visitAll_pure, Run.bind_ret, followUps_subnets]
  · rw [List.length_map, servesPages_length _ _ _ _ _ hS]
  · simp only [privateIPs, hcfg, hvn]
    rw [paginate_serves _ _ _ _ _ _ _ _ hP hfP, visitAll_pure, Run.bind_ret,
      followUps_privateIPs]
  · rw [List.length_map, servesPages_length _ _ _ _ _ hP]

/-- C6, on the tenancy whose listings come in two pages each, with visitors that
record the items. -/
theorem listers_visit_every_page_witness :
    (vcns pagedVnEnv (some sampleRoot) (fun x s => .ret (s ++ [x.Id])) 2 []
        = .ret ⟨none,
            [[(⟨some "ocid1.vcn.a".toList, some "neta".toList⟩ : Vcn)],
              [⟨some "ocid1.vcn.b".toList, some "netb".toList⟩]].flatten.foldl
                (fun s x => s ++ [x.Id]) [],
            ⟨some sampleRoot, none⟩
              :: ["page2".toList].map (fun c => ⟨some sampleRoot, some c⟩)⟩
      ∧ (["page2".toList].map
            (fun c => (⟨some sampleRoot, some c⟩ : ListVcnsRequest))).length + 1
          = [[(⟨some "ocid1.vcn.a".toList, some "neta".toList⟩ : Vcn)],
              [⟨some "ocid1.vcn.b".toList, some "netb".toList⟩]].length)
    ∧ (subnets pagedVnEnv (some sampleRoot) (some "ocid1.vcn.a".toList)
          (fun x s => .ret (s ++ [x.Id])) 2 []
        = .ret ⟨none,
            [[(⟨some "ocid1.subnet.a1".toList, some "web".toList⟩ : Subnet)],
              [⟨some "ocid1.subnet.a2".toList, some "db".toList⟩]].flatten.foldl
                (fun s x => s ++ [x.Id]) [],
            ⟨some sampleRoot, some "ocid1.vcn.a".toList, none⟩
              :: ["page2".toList].map
                  (fun c => ⟨some sampleRoot, some "ocid1.vcn.a".toList, some c⟩)⟩
      ∧ (["page2".toList].map (fun c =>
            (⟨some sampleRoot, some "ocid1.vcn.a".toList, some c⟩ : ListSubnetsRequest))).length
            + 1
          = [[(⟨some "ocid1.subnet.a1".toList, some "web".toList⟩ : Subnet)],
              [⟨some "ocid1.subnet.a2".toList, some "db".toList⟩]].length)
    ∧ (privateIPs pagedVnEnv (some "ocid1.subnet.a1".toList)
          (fun x s => .ret (s ++ [x.IpAddress])) 2 []
        = .ret ⟨none,
            [[(⟨some "10.0.0.5".toList, some "app1".toList, some true⟩ : PrivateIp),
                ⟨some "10.0.0.6".toList, none, some true⟩],
              [⟨some "10.0.0.7".toList, some "app2".toList, some true⟩]].flatten.foldl
                (fun s x => s ++ [x.IpAddress]) [],
            ⟨some "ocid1.subnet.a1".toList, none⟩
              :: ["page2".toList].map (fun c => ⟨some "ocid1.subnet.a1".toList, some c⟩)⟩
      ∧ (["page2".toList].map (fun c =>
            (⟨some "ocid1.subnet.a1".toList, some c⟩ : ListPrivateIpsRequest))).length + 1
          = [[(⟨some "10.0.0.5".toList, some "app1".toList, some true⟩ : PrivateIp),
                ⟨some "10.0.0.6".toList, none, some true⟩],
              [⟨some "10.0.0.7".toList, some "app2".toList, some true⟩]].length) :=
  listers_visit_every_page pagedVnEnv ⟨"DEFAULT"⟩ pagedVn (some sampleRoot)
    (some "ocid1.vcn.a".toList) (some "ocid1.subnet.a1".toList)
    (fun x s => s ++ [x.Id]) (fun x s => s ++ [x.Id]) (fun x s => s ++ [x.IpAddress]) []
    _ _ _ ["page2".toList] ["page2".toList] ["page2".toList] 2 rfl rfl
    ⟨⟨_, rfl, rfl, rfl⟩, ⟨_, rfl, rfl, rfl⟩⟩
    ⟨⟨_, rfl, rfl, rfl⟩, ⟨_, rfl, rfl, rfl⟩⟩
    ⟨⟨_, rfl, rfl, rfl⟩, ⟨_, rfl, rfl, rfl⟩⟩
    (by decide) (by decide) (by decide)

/-! ## The end-to-end example -/

/-- C10, as stated, fails: on the example tenancy the buffer is not the line
with fourteen blanks after the IP literal. -/
theorem walk_example_not_fourteen_blanks :
    hostsOf (walk exampleEnv sampleRoot 1)
      ≠ some "10.0.0.5              app1.web.prod.oraclevcn.com app1.web app1\n".toList := by
  decide

/-- C10 (amended): for a root compartment without child compartments and with
one network with DNS label `prod`, holding one subnet with DNS label `web`,
holding one primary address with IP `10.0.0.5` and hostname label `app1`, the
walk returns and the hosts buffer is exactly the line made of the IP, twelve
blanks (padding to twenty columns), `app1.web.prod.oraclevcn.com app1.web app1`
and a line feed. -/
theorem walk_example (env : Env) (root vcnId subnetId : Str)
    (configProvider : ConfigurationProvider) (idClient : IdentityClient)
    (vnClient : VirtualNetworkClient) (resp : ListResponse Compartment) (fuel : Nat)
    (hcfg : ociConfig env = .ok configProvider)
    (hid : env.NewIdentityClientWithConfigurationProvider configProvider = .ok idClient)
    (hvn : env.NewVirtualNetworkClientWithConfigurationProvider configProvider = .ok vnClient)
    (hc : idClient.ListCompartments (compartmentsRequest root) = .ok resp)
    (hzero : resp.Items = [])
    (hv : vnClient.ListVcns ⟨some root, none⟩ = .ok ⟨[⟨some vcnId, some "prod".toList⟩], none⟩)
    (hs : vnClient.ListSubnets ⟨some root, some vcnId, none⟩
      = .ok ⟨[⟨some subnetId, some "web".toList⟩], none⟩)
    (hp : vnClient.ListPrivateIps ⟨some subnetId, none⟩
      = .ok ⟨[⟨some "10.0.0.5".toList, some "app1".toList, some true⟩], none⟩)
    (hfuel : 0 < fuel) :
    hostsOf (walk env root fuel)
      = some "10.0.0.5            app1.web.prod.oraclevcn.com app1.web app1\n".toList := by
  obtain ⟨n, rfl⟩ : ∃ n, fuel = n + 1 := ⟨fuel - 1, by omega⟩
  simp only [walk, compartments, hcfg, hid, hc, hzero, List.length_nil, if_true,
    visitCompartment, deref, Run.bind_ret, vcns, hvn, paginate, hv, visitAll, visitVcn, subnets,
    hs, visitSubnet, privateIPs, hp, visitPrivateIp, fprintfS_recordFormat, hostsOf, ne_eq,
    not_false_eq_true, and_self, reduceCtorEq]
  decide

/-- C10 (amended), on the example tenancy. -/
theorem walk_example_witness :
    hostsOf (walk exampleEnv sampleRoot 1)
      = some "10.0.0.5            app1.web.prod.oraclevcn.com app1.web app1\n".toList :=
  walk_example exampleEnv sampleRoot "ocid1.vcn.prod".toList "ocid1.subnet.web".toList
    ⟨"DEFAULT"⟩ exampleId exampleVn ⟨[], none⟩ 1 rfl rfl rfl rfl rfl rfl rfl rfl (by decide)

/-! ## The walk -/

theorem Run.bind_ret_right {α : Type} (x : Run α) : x.bind .ret = x := by
  cases x <;> rfl

theorem emit_nil (st : Out) : emit st [] = st := by
  simp [emit]

theorem emit_emit (st : Out) (a b : List Str) : emit (emit st a) b = emit st (a ++ b) := by
  simp [emit, Nat.add_assoc]

theorem visitAll_emit {α : Type} (f : α → Out → Run Out) (g : α → List Str) (xs : List α)
    (h : ∀ x ∈ xs, ∀ st, f x st = .ret (emit st (g x))) (st : Out) :
    visitAll f xs st = .ret (emit st (xs.flatMap g)) := by
  induction xs generalizing st with
  | nil => simp [visitAll, emit_nil]
  | cons x xs ih =>
    rw [visitAll, h x (List.mem_cons_self _ _), Run.bind_ret,
      ih (fun y hy => h y (List.mem_cons_of_mem _ hy)), emit_emit]
    simp

theorem visitAll_map {α β σ : Type} (f : β → σ → Run σ) (k : α → β) (xs : List α) (s : σ) :
    visitAll f (xs.map k) s = visitAll (fun x => f (k x)) xs s := by
  induction xs generalizing s with
  | nil => rfl
  | cons x xs ih =>
    simp only [List.map_cons, visitAll]
    congr 1
    funext s'
    exact ih s'

theorem visits_iff {α ρ : Type} (run : Run (Returned (List α) ρ)) (items : List α) :
    Visits run items ↔ ∃ r, run = .ret r ∧ r.state = items := by
  cases run <;> simp [Visits, visited]

theorem paginate_of_visits {ρ α σ : Type} (call : ρ → Except GoError (ListResponse α))
    (setPage : ρ → Str → ρ) (fuel : Nat) (req : ρ) (items : List α)
    (h : Visits (paginate call setPage record fuel req []) items) (f : α → σ → Run σ) (s : σ) :
    ((paginate call setPage f fuel req s).bind fun r => .ret r.state) = visitAll f items s := by
  obtain ⟨r, hr, rfl⟩ := (visits_iff _ _).mp h
  obtain ⟨items, h1, h2⟩ := paginate_of_record call setPage fuel req [] r hr
  rw [h2 σ f s, h1, List.nil_append, Run.bind_assoc]
  simp only [Run.bind_ret]
  exact Run.bind_ret_right _

theorem privateIPs_of_visits {σ : Type} (env : Env) (subnet : Option Str) (fuel : Nat)
    (items : List PrivateIp) (h : Visits (privateIPs env subnet record fuel []) items)
    (f : PrivateIp → σ → Run σ) (s : σ) :
    ((privateIPs env subnet f fuel s).bind fun r => .ret r.state) = visitAll f items s := by
  cases hc : ociConfig env with
  | error e =>
    simp only [privateIPs, hc] at h ⊢
    obtain ⟨r, hr, rfl⟩ := (visits_iff _ _).mp h
    simp only [Run.ret.injEq] at hr
    subst hr
    rfl
  | ok configProvider =>
    cases hv : env.NewVirtualNetworkClientWithConfigurationProvider configProvider with
    | error e =>
      simp only [privateIPs, hc, hv] at h ⊢
      obtain ⟨r, hr, rfl⟩ := (visits_iff _ _).mp h
      simp only [Run.ret.injEq] at hr
      subst hr
      rfl
    | ok vnClient =>
      simp only [privateIPs, hc, hv] at h ⊢
      exact paginate_of_visits _ _ _ _ _ h f s

theorem subnets_of_visits {σ : Type} (env : Env) (compartment vcn : Option Str) (fuel : Nat)
    (items : List Subnet) (h : Visits (subnets env compartment vcn record fuel []) items)
    (f : Subnet → σ → Run σ) (s : σ) :
    ((subnets env compartment vcn f fuel s).bind fun r => .ret r.state)
      = visitAll f items s := by
  cases hc : ociConfig env with
  | error e =>
    simp only [subnets, hc] at h ⊢
    obtain ⟨r, hr, rfl⟩ := (visits_iff _ _).mp h
    simp only [Run.ret.injEq] at hr
    subst hr
    rfl
  | ok configProvider =>
    cases hv : env.NewVirtualNetworkClientWithConfigurationProvider configProvider with
    | error e =>
      simp only [subnets, hc, hv] at h ⊢
      obtain ⟨r, hr, rfl⟩ := (visits_iff _ _).mp h
      simp only [Run.ret.injEq] at hr
      subst hr
      rfl
    | ok vnClient =>
      simp only [subnets, hc, hv] at h ⊢
      exact paginate_of_visits _ _ _ _ _ h f s

theorem vcns_of_visits {σ : Type} (env : Env) (compartment : Option Str) (fuel : Nat)
    (items : List Vcn) (h : Visits (vcns env compartment record fuel []) items)
    (f : Vcn → σ → Run σ) (s : σ) :
    ((vcns env compartment f fuel s).bind fun r => .ret r.state) = visitAll f items s := by
  cases hc : ociConfig env with
  | error e =>
    simp only [vcns, hc] at h ⊢
    obtain ⟨r, hr, rfl⟩ := (visits_iff _ _).mp h
    simp only [Run.ret.injEq] at hr
    subst hr
    rfl
  | ok configProvider =>
    cases hv : env.NewVirtualNetworkClientWithConfigurationProvider configProvider with
    | error e =>
      simp only [vcns, hc, hv] at h ⊢
      obtain ⟨r, hr, rfl⟩ := (visits_iff _ _).mp h
      simp only [Run.ret.injEq] at hr
      subst hr
      rfl
    | ok vnClient =>
      simp only [vcns, hc, hv] at h ⊢
      exact paginate_of_visits _ _ _ _ _ h f s

theorem visits_of_servesPages (env : Env) (configProvider : ConfigurationProvider)
    (vnClient : VirtualNetworkClient) (compartment vcn subnet : Option Str)
    (vcnPages : List (List Vcn)) (subnetPages : List (List Subnet))
    (ipPages : List (List PrivateIp)) (vcnCursors subnetCursors ipCursors : List Str)
    (fuel : Nat)
    (hcfg : ociConfig env = .ok configProvider)
    (hvn : env.NewVirtualNetworkClientWithConfigurationProvider configProvider = .ok vnClient)
    (hV : ServesPages vnClient.ListVcns (fun req page => { req with Page := some page })
      ⟨compartment, none⟩ vcnPages vcnCursors)
    (hS : ServesPages vnClient.ListSubnets (fun req page => { req with Page := some page })
      ⟨compartment, vcn, none⟩ subnetPages subnetCursors)
    (hP : ServesPages vnClient.ListPrivateIps (fun req page => { req with Page := some page })
      ⟨subnet, none⟩ ipPages ipCursors)
    (hfV : vcnPages.length ≤ fuel) (hfS : subnetPages.length ≤ fuel)
    (hfP : ipPages.length ≤ fuel) :
    Visits (vcns env compartment record fuel []) vcnPages.flatten
    ∧ Visits (subnets env compartment vcn record fuel []) subnetPages.flatten
    ∧ Visits (privateIPs env subnet record fuel []) ipPages.flatten := by
  refine ⟨?_, ?_, ?_⟩
  · simp only [Visits, vcns, hcfg, hvn]
    rw [paginate_serves _ _ _ _ _ _ _ _ hV hfV, visitAll_record, Run.bind_ret]
    simp [visited]
  · simp only [Visits, subnets, hcfg, hvn]
    rw [paginate_serves _ _ _ _ _ _ _ _ hS hfS, visitAll_record, Run.bind_ret]
    simp [visited]
  · simp only [Visits, privateIPs, hcfg, hvn]
    rw [paginate_serves _ _ _ _ _ _ _ _ hP hfP, visitAll_record, Run.bind_ret]
    simp [visited]

theorem visitPrivateIp_emit (vcn : Vcn) (subnet : Subnet) (privateIp : PrivateIp) (st : Out)
    (hv : vcn.DnsLabel ≠ none) (hs : subnet.DnsLabel ≠ none)
    (hp : privateIp.IpAddress ≠ none ∧ privateIp.IsPrimary ≠ none) :
    visitPrivateIp vcn subnet privateIp st = .ret (emit st (hostRecords vcn subnet privateIp)) := by
  obtain ⟨vid, vl⟩ := vcn
  obtain ⟨sid, sl⟩ := subnet
  obtain ⟨ip, hn, pr⟩ := privateIp
  cases vl with
  | none => exact absurd rfl hv
  | some vl =>
    cases sl with
    | none => exact absurd rfl hs
    | some sl =>
      cases ip with
      | none => exact absurd rfl hp.1
      | some ip =>
        cases pr with
        | none => exact absurd rfl hp.2
        | some pr =>
          cases pr <;> cases hn <;>
            simp [visitPrivateIp, hostRecords, emit, deref, Run.bind_ret, fprintfS_recordFormat]

theorem visitSubnet_emit (env : Env) (fuel : Nat) (vcn : Vcn) (subnet : Subnet)
    (addresses : List PrivateIp) (st : Out)
    (hv : vcn.DnsLabel ≠ none) (hs : subnet.Id ≠ none ∧ subnet.DnsLabel ≠ none)
    (hvis : Visits (privateIPs env subnet.Id record fuel []) addresses)
    (hp : ∀ p ∈ addresses, p.IpAddress ≠ none ∧ p.IsPrimary ≠ none) :
    visitSubnet env fuel vcn subnet st
      = .ret (emit st (addresses.flatMap (hostRecords vcn subnet))) := by
  obtain ⟨l, hl⟩ := Option.ne_none_iff_exists'.mp hs.2
  obtain ⟨i, hi⟩ := Option.ne_none_iff_exists'.mp hs.1
  unfold visitSubnet
  rw [hl, hi]
  simp only [deref, Run.bind_ret]
  rw [← hi, privateIPs_of_visits env subnet.Id fuel addresses hvis]
  exact visitAll_emit _ _ _
    (fun p hp' st' => visitPrivateIp_emit vcn subnet p st' hv hs.2 (hp p hp')) st

theorem visitVcn_emit (env : Env) (fuel : Nat) (compartment : Option Str) (vcn : Vcn)
    (S : List Subnet) (P : Subnet → List PrivateIp) (st : Out)
    (hv : vcn.Id ≠ none ∧ vcn.DnsLabel ≠ none)
    (hvis : Visits (subnets env compartment vcn.Id record fuel []) S)
    (hs : ∀ sn ∈ S, sn.Id ≠ none ∧ sn.DnsLabel ≠ none)
    (hP : ∀ sn ∈ S, Visits (privateIPs env sn.Id record fuel []) (P sn))
    (hp : ∀ sn ∈ S, ∀ p ∈ P sn, p.IpAddress ≠ none ∧ p.IsPrimary ≠ none) :
    visitVcn env fuel compartment vcn st
      = .ret (emit st (S.flatMap fun sn => (P sn).flatMap (hostRecords vcn sn))) := by
  obtain ⟨l, hl⟩ := Option.ne_none_iff_exists'.mp hv.2
  obtain ⟨i, hi⟩ := Option.ne_none_iff_exists'.mp hv.1
  unfold visitVcn
  rw [hl, hi]
  simp only [deref, Run.bind_ret]
  rw [← hi, subnets_of_visits env compartment vcn.Id fuel S hvis]
  exact visitAll_emit _ _ _
    (fun sn hsn st' => visitSubnet_emit env fuel vcn sn (P sn) st' hv.2 (hs sn hsn)
      (hP sn hsn) (hp sn hsn)) st

theorem visitCompartment_emit (env : Env) (fuel : Nat) (c : Str) (V : List Vcn)
    (S : Vcn → List Subnet) (P : Subnet → List PrivateIp) (st : Out)
    (hvis : Visits (vcns env (some c) record fuel []) V)
    (hv : ∀ v ∈ V, v.Id ≠ none ∧ v.DnsLabel ≠ none)
    (hS : ∀ v ∈ V, Visits (subnets env (some c) v.Id record fuel []) (S v))
    (hs : ∀ v ∈ V, ∀ sn ∈ S v, sn.Id ≠ none ∧ sn.DnsLabel ≠ none)
    (hP : ∀ v ∈ V, ∀ sn ∈ S v, Visits (privateIPs env sn.Id record fuel []) (P sn))
    (hp : ∀ v ∈ V, ∀ sn ∈ S v, ∀ p ∈ P sn, p.IpAddress ≠ none ∧ p.IsPrimary ≠ none) :
    visitCompartment env fuel (some c) st
      = .ret (emit st (V.flatMap fun v => (S v).flatMap fun sn =>
          (P sn).flatMap (hostRecords v sn))) := by
  unfold visitCompartment
  simp only [deref, Run.bind_ret]
  rw [vcns_of_visits env (some c) fuel V hvis]
  exact visitAll_emit _ _ _
    (fun v hv' st' => visitVcn_emit env fuel (some c) v (S v) P st' (hv v hv') (hS v hv')
      (hs v hv') (hP v hv') (hp v hv')) st

theorem compartments_visits {σ : Type} (env : Env) (c : Str) (f : Option Str → σ → Run σ)
    (s : σ) (configProvider : ConfigurationProvider) (idClient : IdentityClient)
    (resp : ListResponse Compartment) (hcfg : ociConfig env = .ok configProvider)
    (hid : env.NewIdentityClientWithConfigurationProvider configProvider = .ok idClient)
    (hlist : idClient.ListCompartments (compartmentsRequest c) = .ok resp) :
    compartments env c f s
      = (visitAll f (compartmentSet c resp) s).bind fun s' =>
          .ret ⟨none, s', [compartmentsRequest c]⟩ := by
  simp only [compartments, hcfg, hid, hlist, compartmentSet, List.length_eq_zero]
  split
  · simp [visitAll, Run.bind_assoc, Run.bind_ret]
  · rw [visitAll_map]

/-- C7 fails on a tenancy with an address without IP literal: the compartment set
resolves, the subnet listing of network `netb` fails and the listings of network
`neta` succeed, but the address without IP literal in `neta` crashes the
callback, so `main` neither finishes the walk nor calls `writeHosts`. -/
theorem main_crashes_in_sibling_branch :
    compartments (branchEnv [⟨none, some "app1".toList, some true⟩]) sampleRoot record []
        = .ret ⟨none, [some sampleRoot], [compartmentsRequest sampleRoot]⟩
    ∧ (branchVn [⟨none, some "app1".toList, some true⟩]).ListSubnets
          ⟨some sampleRoot, vcnB.Id, none⟩
        = .error "InternalError"
    ∧ walk (branchEnv [⟨none, some "app1".toList, some true⟩]) sampleRoot 1 = .crash
    ∧ main (branchEnv [⟨none, some "app1".toList, some true⟩]) sampleRoot
          "127.0.0.1 localhost\n".toList 1
        = .crash := by
  decide

/-- Branch isolation, for hierarchies in which no callback dereferences a nil
pointer: take a hierarchy whose initial compartment set resolves to the
compartments `cs`, in which the lister of every node returns within the given
number of rounds, with or without an error, after visiting the networks `V c` of
compartment `c`, the subnets `S c v` of network `v` and the addresses `P sn` of
subnet `sn`, and in which every network and subnet carries its identifier and
DNS label and every address its IP literal and primary flag.  Then the walk in
`main` returns with no error from `compartments`, the buffer holds, in listing
order, the record of every qualifying address visited, whatever listing failed,
and `main` goes on to call `writeHosts` with that buffer. -/
theorem walk_isolates_failures (env : Env) (root : Str) (fuel : Nat) (file : Str)
    (configProvider : ConfigurationProvider) (idClient : IdentityClient)
    (resp : ListResponse Compartment) (cs : List Str)
    (V : Str → List Vcn) (S : Str → Vcn → List Subnet) (P : Subnet → List PrivateIp)
    (hcfg : ociConfig env = .ok configProvider)
    (hid : env.NewIdentityClientWithConfigurationProvider configProvider = .ok idClient)
    (hlist : idClient.ListCompartments (compartmentsRequest root) = .ok resp)
    (hcs : compartmentSet root resp = cs.map some)
    (hV : ∀ c ∈ cs, Visits (vcns env (some c) record fuel []) (V c))
    (hS : ∀ c ∈ cs, ∀ v ∈ V c, Visits (subnets env (some c) v.Id record fuel []) (S c v))
    (hP : ∀ c ∈ cs, ∀ v ∈ V c, ∀ sn ∈ S c v,
      Visits (privateIPs env sn.Id record fuel []) (P sn))
    (wfV : ∀ c ∈ cs, ∀ v ∈ V c, v.Id ≠ none ∧ v.DnsLabel ≠ none)
    (wfS : ∀ c ∈ cs, ∀ v ∈ V c, ∀ sn ∈ S c v, sn.Id ≠ none ∧ sn.DnsLabel ≠ none)
    (wfP : ∀ c ∈ cs, ∀ v ∈ V c, ∀ sn ∈ S c v, ∀ p ∈ P sn,
      p.IpAddress ≠ none ∧ p.IsPrimary ≠ none) :
    walk env root fuel
        = .ret ⟨none, ⟨(walkRecords cs V S P).flatten, (walkRecords cs V S P).length⟩,
            [compartmentsRequest root]⟩
    ∧ main env root file fuel
        = match writeHosts file (walkRecords cs V S P).flatten with
          | .ok out => .wrote out (walkRecords cs V S P).length
          | .error _ => .fatal "Could not write" := by
  have hw : walk env root fuel
      = .ret ⟨none, ⟨(walkRecords cs V S P).flatten, (walkRecords cs V S P).length⟩,
          [compartmentsRequest root]⟩ := by
    unfold walk
    rw [compartments_visits env root _ _ configProvider idClient resp hcfg hid hlist, hcs,
      visitAll_map]
    rw [visitAll_emit (fun c => visitCompartment env fuel (some c))
      (fun c => (V c).flatMap fun v => (S c v).flatMap fun sn =>
        (P sn).flatMap (hostRecords v sn)) cs
      (fun c hc st => visitCompartment_emit env fuel c (V c) (S c) P st (hV c hc) (wfV c hc)
        (hS c hc) (wfS c hc) (hP c hc) (wfP c hc))]
    simp [Run.bind_ret, emit, walkRecords]
  refine ⟨hw, ?_⟩
  simp only [main, hw]
  cases writeHosts file (walkRecords cs V S P).flatten <;> rfl

set_option maxRecDepth 8000 in
/-- Branch isolation on the tenancy with two networks where the subnet listing
of `netb` fails: the record of the qualifying address of `neta` is in the
buffer, and `main` writes the file. -/
theorem walk_isolates_failures_witness :
    (walk (branchEnv addressesA1) sampleRoot 1
        = .ret ⟨none,
            ⟨(walkRecords [sampleRoot] (fun _ => [vcnA, vcnB])
                (fun _ v => if v = vcnA then [subnetA1] else []) (fun _ => addressesA1)).flatten,
              (walkRecords [sampleRoot] (fun _ => [vcnA, vcnB])
                (fun _ v => if v = vcnA then [subnetA1] else []) (fun _ => addressesA1)).length⟩,
            [compartmentsRequest sampleRoot]⟩
      ∧ main (branchEnv addressesA1) sampleRoot "127.0.0.1 localhost\n".toList 1
        = match writeHosts "127.0.0.1 localhost\n".toList
            (walkRecords [sampleRoot] (fun _ => [vcnA, vcnB])
              (fun _ v => if v = vcnA then [subnetA1] else []) (fun _ => addressesA1)).flatten with
          | .ok out => .wrote out
              (walkRecords [sampleRoot] (fun _ => [vcnA, vcnB])
                (fun _ v => if v = vcnA then [subnetA1] else []) (fun _ => addressesA1)).length
          | .error _ => .fatal "Could not write")
    ∧ (branchVn addressesA1).ListSubnets ⟨some sampleRoot, vcnB.Id, none⟩
        = .error "InternalError"
    ∧ (walkRecords [sampleRoot] (fun _ => [vcnA, vcnB])
          (fun _ v => if v = vcnA then [subnetA1] else []) (fun _ => addressesA1)).flatten
        = "10.0.0.5            app1.web.neta.oraclevcn.com app1.web app1\n".toList
    ∧ main (branchEnv addressesA1) sampleRoot "127.0.0.1 localhost\n".toList 1
        = .wrote ("127.0.0.1 localhost\n# oci_hosts text below this will be removed\n".toList
            ++ "10.0.0.5            app1.web.neta.oraclevcn.com app1.web app1\n".toList) 1 :=
  ⟨walk_isolates_failures (branchEnv addressesA1) sampleRoot 1 "127.0.0.1 localhost\n".toList
    ⟨"DEFAULT"⟩ exampleId ⟨[], none⟩ [sampleRoot] (fun _ => [vcnA, vcnB])
    (fun _ v => if v = vcnA then [subnetA1] else []) (fun _ => addressesA1)
    rfl rfl rfl rfl
    (by decide) (by decide) (by decide) (by decide) (by decide) (by decide),
   by decide, by decide, by decide⟩

end OciHosts
